import Mathlib

/-!
# Verification of the vanilla-JS shell: router and MFE lifecycle manager

Shallow embedding of `src/shell-vanilla/src/mfe-loader.js`,
`src/shell-vanilla/src/router.js` and the error-boundary module
(`createMFEFallback`, `src/unnamed/part_007`) of the MFESample repository,
together with theorems settling the spec claims about them.

Modelling conventions:

* JavaScript's single event loop makes every `await`ed call sequential, so
  all operations are pure Lean functions threading explicit state.
* The DOM is a list of elements keyed by a numeric identity; an element
  carries its `id` attribute (`domId`), its child content, and whether it is
  attached to the document (`parentNode` non-null).  `innerHTML = ''`
  becomes "set content to `[]`"; `appendChild` appends a node.
* `document.querySelector` is modelled for the selector shapes the shell
  uses: `Sel.byId s` stands for the string `"#" ++ s` (resolved to the first
  attached element whose `domId` is `s`), and `Sel.bad` stands for a string
  that is not a parsable CSS selector, on which `querySelector` throws a
  `SyntaxError`.  `ContainerArg.nullish` stands for passing `null` or
  `undefined` (neither a string nor an `HTMLElement`).
* External effects (the federation import and the remote's mount function)
  are oracles passed as arguments: an `ImportOutcome` fixes whether
  `_importRemoteModule` rejects and, if not, what the module's mount
  function does (throw, or return content appended to the container plus a
  result value whose `unmount`/`destroy` members may be absent, succeed, or
  throw when invoked).  A remote's own teardown is modelled as having no
  effect on the tracked DOM; only the shell's default teardown (which
  clears the container) has a modelled DOM effect, since no claim inspects
  the DOM after a remote-provided teardown.
* `console.log`/`warn`/`error` calls and the key internal milestones are
  recorded in an event list so that claims about ordering ("tears down
  before the new mount is installed") and about warnings are statable.
* The catch block of `_displayError` reads the variable `container`, which
  is declared with `const` inside the preceding `try` block and is
  therefore not in scope in the catch block; the shell is an ES module
  (strict mode) and no global binding named `container` exists (no element
  with `id="container"` is created anywhere in the shell), so that read
  throws a `ReferenceError`.  This is modelled faithfully.
-/

namespace MFE

/-- Behaviour of a remote-supplied teardown callable when invoked. -/
inductive TDB where
  | ok
  | raises
deriving Repr, DecidableEq

/-- A DOM child node, as far as the claims can observe it. -/
inductive Node where
  /-- The rich fallback view built by `createMFEFallback name …`. -/
  | errorFallback (name : String)
  /-- Arbitrary content a remote's mount function appended. -/
  | mfeContent (tag : Nat)
deriving Repr, DecidableEq

/-- State of one DOM element. -/
structure ElemSt where
  domId : String
  content : List Node
  attached : Bool
deriving Repr, DecidableEq

/-- The document: elements in document order, plus a fresh-identity counter. -/
structure Dom where
  elems : List (Nat × ElemSt)
  nextId : Nat
deriving Repr, DecidableEq

/-- Association-list lookup with propositional key equality. -/
def mget {A : Type} (l : List (String × A)) (k : String) : Option A :=
  match l with
  | [] => none
  | (k', v) :: t => if k' = k then some v else mget t k

/-- JS `Map.prototype.set`: replace in place if the key exists, else append. -/
def mset {A : Type} (l : List (String × A)) (k : String) (v : A) : List (String × A) :=
  match l with
  | [] => [(k, v)]
  | (k', v') :: t => if k' = k then (k, v) :: t else (k', v') :: mset t k v

/-- JS `Map.prototype.delete` (a JS `Map` holds at most one entry per key). -/
def mdel {A : Type} (l : List (String × A)) (k : String) : List (String × A) :=
  match l with
  | [] => []
  | (k', v) :: t => if k' = k then mdel t k else (k', v) :: mdel t k

/-- Look up a DOM element by identity. -/
def domGet (d : Dom) (i : Nat) : Option ElemSt :=
  match d.elems.find? (fun p => p.1 = i) with
  | some p => some p.2
  | none => none

/-- Update element `i` in place. -/
def domMod (d : Dom) (i : Nat) (f : ElemSt → ElemSt) : Dom :=
  { d with elems := d.elems.map (fun p => if p.1 = i then (p.1, f p.2) else p) }

/-- Replace the content of element `i` (models `innerHTML` assignment plus
`appendChild` of freshly built nodes). -/
def domSetContent (d : Dom) (i : Nat) (c : List Node) : Dom :=
  domMod d i (fun st => { st with content := c })

/-- Append nodes to the content of element `i`. -/
def domAppend (d : Dom) (i : Nat) (ns : List Node) : Dom :=
  domMod d i (fun st => { st with content := st.content ++ ns })

/-- `document.createElement('div')` + set `id` + `document.body.appendChild`:
a fresh, attached, empty element at the end of the document. -/
def domCreate (d : Dom) (domId : String) : Nat × Dom :=
  (d.nextId, { elems := d.elems ++ [(d.nextId, ⟨domId, [], true⟩)], nextId := d.nextId + 1 })

/-- `document.querySelector('#s')`: the first in-document element whose id is `s`. -/
def querySelById (d : Dom) (s : String) : Option Nat :=
  match d.elems.find? (fun p => p.2.domId = s && p.2.attached) with
  | some p => some p.1
  | none => none

/-- A CSS selector string, restricted to the shapes the shell uses. -/
inductive Sel where
  /-- The selector string `"#" ++ s`. -/
  | byId (s : String)
  /-- An unparsable selector string: `querySelector` throws a `SyntaxError`. -/
  | bad
deriving Repr, DecidableEq

/-- The `containerSelector` argument of `loadMFE` / `_displayError`. -/
inductive ContainerArg where
  /-- An `HTMLElement` reference. -/
  | element (i : Nat)
  /-- A selector string. -/
  | selector (s : Sel)
  /-- `null`/`undefined`: neither a string nor an `HTMLElement` (falsy). -/
  | nullish
deriving Repr, DecidableEq

/-- The value a remote's mount function resolves to: which teardown members
it carries and how they behave when invoked. -/
structure MountVal where
  unmount : Option TDB
  destroy : Option TDB
deriving Repr, DecidableEq

/-- What the remote's mount function does when called. -/
inductive MountOutcome where
  | throws (msg : String)
  | returns (appended : List Node) (v : MountVal)
deriving Repr, DecidableEq

/-- The module `_importRemoteModule` resolves to. -/
structure RemoteModule where
  /-- `mount`/`bootstrap`/`default.mount` is a function. -/
  hasMount : Bool
  mount : MountOutcome
deriving Repr, DecidableEq

/-- Outcome of `_importRemoteModule` for one call. -/
inductive ImportOutcome where
  | fails (msg : String)
  | succeeds (m : RemoteModule)
deriving Repr, DecidableEq

/-- The instance value stored in the loaded-MFE metadata: either the
remote's own result (kept only when its `unmount` is callable), or the
default teardown `_bootstrapMFE` substitutes, which clears the container. -/
inductive Instance where
  | val (unmount : Option TDB) (destroy : Option TDB)
  | defaultTD
deriving Repr, DecidableEq

/-- Stored metadata for one loaded MFE (the `name`, `loadedAt` and `options`
fields of the source carry no claim-relevant information). -/
structure MFEMeta where
  container : Nat
  /-- The source field is called `instance` (a Lean keyword). -/
  inst : Instance
deriving Repr, DecidableEq

/-- The `MFELoader` singleton's state. -/
structure LoaderState where
  loadedMFEs : List (String × MFEMeta)
  currentMFE : Option String
  dom : Dom
deriving Repr, DecidableEq

/-- Console output and internal milestones of loader operations. -/
inductive LEv where
  | alreadyLoadedWarn (name : String)
  | notLoadedWarn (name : String)
  /-- The stored instance's teardown callable was invoked. -/
  | teardownCalled (name : String)
  | teardownFailed (name : String)
  /-- The map entry was deleted. -/
  | unloaded (name : String)
  /-- `_bootstrapMFE` warned and substituted the default teardown. -/
  | defaultTeardownWarn
  /-- The mount function returned. -/
  | mounted (name : String)
  /-- The new map entry was stored. -/
  | installed (name : String)
  | loadFailed (name : String)
deriving Repr, DecidableEq

/-- Result of `loadMFE`: the promise resolves, or rejects with an error
whose message is recorded. -/
inductive LoadOutcome where
  | ok
  | err (msg : String)
deriving Repr, DecidableEq

/-- `_getOrCreateContainer`.  `Except.error` is a thrown `SyntaxError` from
`querySelector` on an unparsable selector; `Option.none` is the `null`
return for a nullish argument.  For a `'#' ++ s` selector that matches
nothing, a fresh element with id `s` (`containerSelector.replace('#','')`)
is created and appended to the body. -/
def getOrCreateContainer (d : Dom) (carg : ContainerArg) : Except String (Option (Nat × Dom)) :=
  match carg with
  | .element i => .ok (some (i, d))
  | .selector (.byId s) =>
    match querySelById d s with
    | some i => .ok (some (i, d))
    | none => .ok (some (domCreate d s))
  | .selector .bad => .error "SyntaxError: invalid selector"
  | .nullish => .ok none

/-- `_displayError` (error parameter elided: it only feeds display text).
The try block resolves the container (`querySelector` for a string argument,
the value itself otherwise), clears it and appends the `createMFEFallback`
view; `createMFEFallback` itself only builds detached DOM nodes and never
throws.  If the try block throws (unparsable selector), the catch block
reads the out-of-scope `container` binding and itself throws a
`ReferenceError`, which escapes `_displayError`. -/
def displayError (d : Dom) (carg : ContainerArg) (name : String) : Except String Dom :=
  match carg with
  | .element i => .ok (domSetContent d i [Node.errorFallback name])
  | .selector (.byId s) =>
    match querySelById d s with
    | some i => .ok (domSetContent d i [Node.errorFallback name])
    | none => .ok d
  | .selector .bad => .error "ReferenceError: container is not defined"
  | .nullish => .ok d

/-- The `if (container && container.parentNode) container.innerHTML = ''`
step of `unloadMFE`: clear the container's content when it is attached. -/
def clearIfAttached (d : Dom) (c : Nat) : Dom :=
  match domGet d c with
  | some st => if st.attached then domSetContent d c [] else d
  | none => d

/-- `unloadMFE`.  Returns the state, the events, and the resolved boolean. -/
def unloadMFE (s : LoaderState) (name : String) : LoaderState × List LEv × Bool :=
  match mget s.loadedMFEs name with
  | none => (s, [.notLoadedWarn name], false)
  | some m =>
    -- the try block: invoke the instance's unmount (or destroy) if callable
    let inv : Option (Dom × Bool) :=  -- (dom after teardown, teardown threw)
      match m.inst with
      | .defaultTD => some (domSetContent s.dom m.container [], false)
      | .val (some .ok) _ => some (s.dom, false)
      | .val (some .raises) _ => some (s.dom, true)
      | .val none (some .ok) => some (s.dom, false)
      | .val none (some .raises) => some (s.dom, true)
      | .val none none => none
    match inv with
    | none =>
      -- no callable teardown: clear the container if attached, delete entry
      ({ loadedMFEs := mdel s.loadedMFEs name,
         currentMFE := if s.currentMFE = some name then none else s.currentMFE,
         dom := clearIfAttached s.dom m.container },
       [.unloaded name], true)
    | some (d1, threw) =>
      if threw then
        -- catch: still remove from map, but `currentMFE` is left untouched
        ({ loadedMFEs := mdel s.loadedMFEs name,
           currentMFE := s.currentMFE,
           dom := d1 },
         [.teardownCalled name, .teardownFailed name, .unloaded name], false)
      else
        ({ loadedMFEs := mdel s.loadedMFEs name,
           currentMFE := if s.currentMFE = some name then none else s.currentMFE,
           dom := clearIfAttached d1 m.container },
         [.teardownCalled name, .unloaded name], true)

/-- The catch block of `loadMFE`: display the error (which may itself throw
a `ReferenceError`, replacing the rejection value), then reject with the
wrapped error naming the MFE. -/
def loadCatch (s : LoaderState) (carg : ContainerArg) (name : String) (msg : String) :
    LoaderState × List LEv × LoadOutcome :=
  match displayError s.dom carg name with
  | .error rmsg => (s, [.loadFailed name], .err rmsg)
  | .ok d' => ({ s with dom := d' }, [.loadFailed name], .err ("MFE load failed: " ++ name ++ " - " ++ msg))

/-- The "already loaded, unload first" phase of `loadMFE`. -/
def unloadFirst (s : LoaderState) (name : String) : LoaderState × List LEv :=
  match mget s.loadedMFEs name with
  | some _ =>
    let u := unloadMFE s name
    (u.1, .alreadyLoadedWarn name :: u.2.1)
  | none => (s, [])

/-- `loadMFE name containerSelector` with the external world fixed by `imp`. -/
def loadMFE (s : LoaderState) (name : String) (carg : ContainerArg) (imp : ImportOutcome) :
    LoaderState × List LEv × LoadOutcome :=
  match getOrCreateContainer s.dom carg with
  | .error msg => loadCatch s carg name msg
  | .ok none => loadCatch s carg name "Container not found"
  | .ok (some (c, d0)) =>
    let s0 : LoaderState := { s with dom := d0 }
    -- if already loaded, synchronously unload first
    let step1 := unloadFirst s0 name
    let s1 := step1.1
    let ev1 := step1.2
    match imp with
    | .fails msg =>
      let r := loadCatch s1 carg name ("Failed to import remote module: " ++ msg)
      (r.1, ev1 ++ r.2.1, r.2.2)
    | .succeeds m =>
      if m.hasMount then
        match m.mount with
        | .throws msg =>
          let r := loadCatch s1 carg name msg
          (r.1, ev1 ++ r.2.1, r.2.2)
        | .returns app v =>
          let d2 := domAppend s1.dom c app
          let instEv : Instance × List LEv :=
            match v.unmount with
            | some u => (Instance.val (some u) v.destroy, [])
            | none => (Instance.defaultTD, [.defaultTeardownWarn])
          let meta : MFEMeta := { container := c, inst := instEv.1 }
          ({ loadedMFEs := mset s1.loadedMFEs name meta,
             currentMFE := some name,
             dom := d2 },
           ev1 ++ instEv.2 ++ [.mounted name, .installed name], .ok)
      else
        let r := loadCatch s1 carg name "Remote module does not export a mount or bootstrap function"
        (r.1, ev1 ++ r.2.1, r.2.2)

/-- `getCurrentMFE`. -/
def getCurrentMFE (s : LoaderState) : Option String :=
  s.currentMFE

/-- `isLoaded`. -/
def isLoaded (s : LoaderState) (name : String) : Bool :=
  (mget s.loadedMFEs name).isSome

/-- One external call to the loader. -/
inductive LOp where
  | load (name : String) (carg : ContainerArg) (imp : ImportOutcome)
  | unload (name : String)
deriving Repr, DecidableEq

/-- State transition of one call (events and return value discarded). -/
def lstep (s : LoaderState) (op : LOp) : LoaderState :=
  match op with
  | .load n carg imp => (loadMFE s n carg imp).1
  | .unload n => (unloadMFE s n).1

/-- Run a call sequence. -/
def lrun (s : LoaderState) (ops : List LOp) : LoaderState :=
  ops.foldl lstep s

/-- The constructor state of the `MFELoader` singleton over a given document. -/
def initLoader (d : Dom) : LoaderState :=
  { loadedMFEs := [], currentMFE := none, dom := d }

end MFE

namespace VRouter

/-!
Embedding of `src/shell-vanilla/src/router.js`.  A route handler is opaque
to the router; each registered handler's behaviour for the run under
consideration is fixed in the route table (`HB.ok`: the awaited call
resolves; `HB.raises`: it throws).  `window.history.pushState` appends to
an explicit history list; the `popstate` listener registration is counted.
Console output and handler invocations are recorded as events.
-/

/-- Behaviour of a registered handler when invoked. -/
inductive HB where
  | ok
  | raises
deriving Repr, DecidableEq

/-- The `Router` singleton's state. -/
structure RouterState where
  routes : List (String × HB)
  currentRoute : Option String
  isInit : Bool
  history : List String
  listeners : Nat
deriving Repr, DecidableEq

/-- Console output and milestones of router operations. -/
inductive REv where
  | warnNotFound (path : String)
  | pushedState (path : String)
  /-- The handler registered for `path` was invoked. -/
  | handlerRun (path : String)
  /-- The inner catch logged `Error executing handler for route path`. -/
  | handlerError (path : String)
  /-- The inner catch logged `Attempting to recover by navigating to home`
      and called `navigate('/')`. -/
  | recoverHome
  /-- The outer catch logged `Critical navigation error`. -/
  | criticalError
  | warnAlreadyInit
deriving Repr, DecidableEq

/-- The promise returned by `navigate` either resolves or rejects. -/
inductive NavOutcome where
  | resolved
  | rejected (msg : String)
deriving Repr, DecidableEq

/-- The part of `navigate` before the handler runs: substitute the default
path `'/'` (with a warning) when `path` is not an exact key of the route
table, push a history entry unless `skipPushState`, and store the current
route.  Returns the updated state, the events, and the substituted path. -/
def navPre (s : RouterState) (path : String) (skip : Bool) :
    RouterState × List REv × String :=
  let subst : List REv × String :=
    if (MFE.mget s.routes path).isSome then ([], path)
    else ([.warnNotFound path], "/")
  let p := subst.2
  let pushed : List String × List REv :=
    if skip then (s.history, []) else (s.history ++ [p], [.pushedState p])
  ({ s with history := pushed.1, currentRoute := some p },
   subst.1 ++ pushed.2, p)

/-- `navigate(s, '/', false)` unrolled: the recursive recovery call of the
source always has path `'/'`, for which the recovery branch (guarded by
`path !== '/'`) is unreachable, so this unrolling is exact
(`navigate_root_eq` below proves it against `navigate`). -/
def navigateDefault (s : RouterState) : RouterState × List REv × NavOutcome :=
  let pre := navPre s "/" false
  let s1 := pre.1
  let ev1 := pre.2.1
  match MFE.mget s1.routes "/" with
  | some .ok => (s1, ev1 ++ [.handlerRun "/"], .resolved)
  | some .raises =>
    (s1, ev1 ++ [.handlerRun "/", .handlerError "/", .criticalError], .resolved)
  | none =>
    -- `routes.get('/')` is undefined, so `handler(path)` throws a TypeError
    (s1, ev1 ++ [.handlerError "/", .criticalError], .resolved)

/-- The try body of `navigate`: returns the state, the events, and the
error the inner catch re-threw, if any (only when the failing path is
`'/'` or `'/home'`).  In the recovery branch the source calls
`this.navigate('/')` without awaiting it; the event loop runs that call to
completion before anything else observes the router, so its effects are
appended here. -/
def navigateBody (s : RouterState) (path : String) (skip : Bool) :
    RouterState × List REv × Option String :=
  let pre := navPre s path skip
  let s1 := pre.1
  let ev1 := pre.2.1
  let p := pre.2.2
  let handlerEv : List REv × Bool :=  -- events of the handler call, did it throw
    match MFE.mget s1.routes p with
    | some .ok => ([.handlerRun p], false)
    | some .raises => ([.handlerRun p, .handlerError p], true)
    | none => ([.handlerError p], true)
  if handlerEv.2 then
    if p ≠ "/" ∧ p ≠ "/home" then
      let rec_ := navigateDefault s1
      (rec_.1, ev1 ++ handlerEv.1 ++ [.recoverHome] ++ rec_.2.1, none)
    else
      (s1, ev1 ++ handlerEv.1, some "handler failed")
  else
    (s1, ev1 ++ handlerEv.1, none)

/-- `navigate`: the whole body sits in a try whose catch logs
`Critical navigation error` and returns normally, so the promise resolves
on every path. -/
def navigate (s : RouterState) (path : String) (skip : Bool) :
    RouterState × List REv × NavOutcome :=
  match navigateBody s path skip with
  | (s', ev, none) => (s', ev, .resolved)
  | (s', ev, some _) => (s', ev ++ [.criticalError], .resolved)

/-- `register`: rejects non-callable handlers (our handlers are callable by
construction, so only the storing branch is modelled). -/
def register (s : RouterState) (path : String) (hb : HB) : RouterState :=
  { s with routes := MFE.mset s.routes path hb }

/-- `init`: warn and return if already initialized; otherwise add the
popstate listener, navigate to the location's path silently, and mark
initialized. -/
def init (s : RouterState) (locPath : String) : RouterState × List REv :=
  if s.isInit then (s, [.warnAlreadyInit])
  else
    let s1 := { s with listeners := s.listeners + 1 }
    let nav := navigate s1 locPath true
    ({ nav.1 with isInit := true }, nav.2.1)

/-- `getCurrentRoute`. -/
def getCurrentRoute (s : RouterState) : Option String :=
  s.currentRoute

/-- `hasRoute`. -/
def hasRoute (s : RouterState) (path : String) : Bool :=
  (MFE.mget s.routes path).isSome

/-- The fresh `Router` singleton. -/
def initRouter : RouterState :=
  { routes := [], currentRoute := none, isInit := false, history := [], listeners := 0 }

end VRouter

namespace MFE

/-- An instance value on which `unloadMFE` finds a callable teardown
(`unmount` or `destroy`) to invoke. -/
def instHasTeardown : Instance → Bool
  | .val none none => false
  | _ => true

/-- No teardown callable of this stored instance throws when invoked. -/
def benignInst : Instance → Bool
  | .val (some .raises) _ => false
  | .val _ (some .raises) => false
  | _ => true

/-- No teardown callable of this mount result throws when invoked. -/
def benignVal (v : MountVal) : Bool :=
  match v.unmount, v.destroy with
  | some .raises, _ => false
  | _, some .raises => false
  | _, _ => true

/-- The call installs no instance whose teardown throws. -/
def benignOp : LOp → Bool
  | .load _ _ (.succeeds ⟨_, .returns _ v⟩) => benignVal v
  | _ => true

/-- Loader invariant: every tracked instance has benign teardowns, and the
current-MFE pointer, when set, names a tracked entry. -/
def LInv (s : LoaderState) : Prop :=
  (∀ p ∈ s.loadedMFEs, benignInst p.2.inst = true) ∧
  (∀ n, s.currentMFE = some n → (mget s.loadedMFEs n).isSome = true)

/-- The import/mount oracle makes `loadMFE` fail after container
resolution: the import rejects, the module has no mount function, or the
mount function throws. -/
def importFails : ImportOutcome → Bool
  | .fails _ => true
  | .succeeds m =>
    if m.hasMount then
      match m.mount with
      | .throws _ => true
      | .returns _ _ => false
    else true

/-! Concrete fixtures for witnesses and counterexamples: a document with
one attached `mfe-container` element, and import oracles for a remote whose
mount succeeds with various teardown results. -/

/-- A document holding one attached, empty `mfe-container` element. -/
def domEx : Dom := ⟨[(0, ⟨"mfe-container", [], true⟩)], 1⟩

/-- The loader singleton over `domEx`. -/
def sEx : LoaderState := initLoader domEx

/-- Import succeeds; mount appends one node and returns a well-behaved `unmount`. -/
def impOk : ImportOutcome := .succeeds ⟨true, .returns [Node.mfeContent 0] ⟨some .ok, none⟩⟩

/-- Import succeeds; mount returns an `unmount` that throws when invoked. -/
def impRaises : ImportOutcome := .succeeds ⟨true, .returns [Node.mfeContent 0] ⟨some .raises, none⟩⟩

/-- Import succeeds; mount resolves to `\x7b\x7d` (no teardown callable). -/
def impNoU : ImportOutcome := .succeeds ⟨true, .returns [Node.mfeContent 7] ⟨none, none⟩⟩

/-- `sEx` after a successful `loadMFE('a', container)`. -/
def sLoadedA : LoaderState := (loadMFE sEx "a" (.element 0) impOk).1

end MFE

namespace VRouter

/-- A route table with a healthy home route and a throwing `/home` route. -/
def rEx : RouterState :=
  { routes := [("/", .ok), ("/home", .raises)], currentRoute := none,
    isInit := false, history := [], listeners := 0 }

/-- A route table whose default (home) route itself throws. -/
def rExBadHome : RouterState :=
  { routes := [("/", .raises)], currentRoute := none,
    isInit := false, history := [], listeners := 0 }

end VRouter


/-! ## Helper lemmas about the map and DOM primitives -/

namespace MFE

theorem mget_mdel_self {A : Type} (l : List (String × A)) (k : String) :
    mget (mdel l k) k = none := by
  induction l with
  | nil => rfl
  | cons p t ih =>
    obtain ⟨k', v⟩ := p
    by_cases hp : k' = k <;> simp [mdel, hp, mget, ih]

theorem mget_mdel_ne {A : Type} (l : List (String × A)) (k M : String) (h : M ≠ k) :
    mget (mdel l k) M = mget l M := by
  induction l with
  | nil => rfl
  | cons p t ih =>
    obtain ⟨k', v⟩ := p
    by_cases hp : k' = k
    · have hm : k' ≠ M := by rw [hp]; exact Ne.symm h
      simp [mdel, hp, mget, hm, ih, h, Ne.symm h]
    · by_cases hm : k' = M <;> simp [mdel, hp, mget, hm, ih, h, Ne.symm h]

theorem mget_mset_self {A : Type} (l : List (String × A)) (k : String) (v : A) :
    mget (mset l k v) k = some v := by
  induction l with
  | nil => simp [mset, mget]
  | cons p t ih =>
    obtain ⟨k', v'⟩ := p
    by_cases hp : k' = k <;> simp [mset, hp, mget, ih]

theorem mget_mset_ne {A : Type} (l : List (String × A)) (k M : String) (v : A) (h : M ≠ k) :
    mget (mset l k v) M = mget l M := by
  have hk : k ≠ M := Ne.symm h
  induction l with
  | nil => simp [mset, mget, hk]
  | cons p t ih =>
    obtain ⟨k', v'⟩ := p
    by_cases hp : k' = k
    · have hm : k' ≠ M := by rw [hp]; exact hk
      simp [mset, hp, mget, hm, hk]
    · by_cases hm : k' = M <;> simp [mset, hp, mget, hm, ih, h, hk]

theorem mget_mem {A : Type} (l : List (String × A)) (k : String) (v : A)
    (h : mget l k = some v) : (k, v) ∈ l := by
  induction l with
  | nil => simp [mget] at h
  | cons p t ih =>
    obtain ⟨k', v'⟩ := p
    by_cases hp : k' = k
    · simp only [mget, hp, if_pos] at h
      cases h
      subst hp
      exact List.mem_cons_self _ _
    · simp only [mget, hp, if_neg, not_false_iff] at h
      exact List.mem_cons_of_mem _ (ih h)

theorem mem_mset {A : Type} (l : List (String × A)) (k : String) (v : A) (p : String × A)
    (h : p ∈ mset l k v) : p = (k, v) ∨ p ∈ l := by
  induction l with
  | nil => simpa [mset] using h
  | cons q t ih =>
    obtain ⟨k', v'⟩ := q
    by_cases hq : k' = k
    · simp only [mset, hq, if_pos, List.mem_cons] at h
      rcases h with h | h
      · exact Or.inl h
      · exact Or.inr (List.mem_cons_of_mem _ h)
    · simp only [mset, hq, if_neg, not_false_iff, List.mem_cons] at h
      rcases h with h | h
      · exact Or.inr (by simp [h])
      · rcases ih h with h' | h'
        · exact Or.inl h'
        · exact Or.inr (List.mem_cons_of_mem _ h')

theorem mem_mdel {A : Type} (l : List (String × A)) (k : String) (p : String × A)
    (h : p ∈ mdel l k) : p ∈ l := by
  induction l with
  | nil => simp [mdel] at h
  | cons q t ih =>
    obtain ⟨k', v'⟩ := q
    by_cases hq : k' = k
    · simp only [mdel, hq, if_pos] at h
      exact List.mem_cons_of_mem _ (ih h)
    · simp only [mdel, hq, if_neg, not_false_iff, List.mem_cons] at h
      rcases h with h | h
      · exact List.mem_cons.mpr (Or.inl h)
      · exact List.mem_cons_of_mem _ (ih h)

theorem filter_mset_self {A : Type} (l : List (String × A)) (k : String) (v : A)
    (h : mget l k = none) : (mset l k v).filter (fun p => p.1 = k) = [(k, v)] := by
  induction l with
  | nil => simp [mset]
  | cons p t ih =>
    obtain ⟨k', v'⟩ := p
    by_cases hp : k' = k
    · simp [mget, hp] at h
    · simp only [mget, hp, if_neg, not_false_iff] at h
      simp [mset, hp, List.filter_cons, ih h]

end MFE


namespace MFE

theorem domGet_domMod (d : Dom) (j : Nat) (f : ElemSt → ElemSt) (i : Nat) :
    domGet (domMod d j f) i = (domGet d i).map (fun st => if i = j then f st else st) := by
  obtain ⟨l, n⟩ := d
  simp only [domGet, domMod, List.find?_map]
  have hpred : ((fun q : Nat × ElemSt => decide (q.1 = i)) ∘
      (fun q : Nat × ElemSt => if q.1 = j then (q.1, f q.2) else q))
      = fun q : Nat × ElemSt => decide (q.1 = i) := by
    funext q
    by_cases hq : q.1 = j <;> simp [hq]
  rw [hpred]
  cases hf : l.find? (fun q : Nat × ElemSt => decide (q.1 = i)) with
  | none => rfl
  | some q =>
    have hqi : q.1 = i := by simpa using List.find?_some hf
    subst hqi
    by_cases hj : q.1 = j <;> simp [hj]

theorem domGet_domMod_isSome (d : Dom) (j : Nat) (f : ElemSt → ElemSt) (i : Nat) :
    (domGet (domMod d j f) i).isSome = (domGet d i).isSome := by
  rw [domGet_domMod]
  cases domGet d i <;> simp

theorem domGet_setContent_self (d : Dom) (i : Nat) (c : List Node) :
    domGet (domSetContent d i c) i = (domGet d i).map (fun st => { st with content := c }) := by
  rw [domSetContent, domGet_domMod]
  cases domGet d i <;> simp

theorem querySel_domMod (d : Dom) (j : Nat) (f : ElemSt → ElemSt) (s : String)
    (hid : ∀ st, (f st).domId = st.domId) (hat : ∀ st, (f st).attached = st.attached) :
    querySelById (domMod d j f) s = querySelById d s := by
  obtain ⟨l, n⟩ := d
  simp only [querySelById, domMod, List.find?_map]
  have hpred : ((fun q : Nat × ElemSt => q.2.domId = s && q.2.attached) ∘
      (fun q : Nat × ElemSt => if q.1 = j then (q.1, f q.2) else q))
      = fun q : Nat × ElemSt => q.2.domId = s && q.2.attached := by
    funext q
    by_cases hq : q.1 = j <;> simp [hq, hid, hat]
  rw [hpred]
  cases hf : l.find? (fun q : Nat × ElemSt => q.2.domId = s && q.2.attached) with
  | none => rfl
  | some q =>
    by_cases hj : q.1 = j <;> simp [hj]

theorem querySel_setContent (d : Dom) (j : Nat) (c : List Node) (s : String) :
    querySelById (domSetContent d j c) s = querySelById d s :=
  querySel_domMod d j _ s (fun _ => rfl) (fun _ => rfl)

theorem querySel_append (d : Dom) (j : Nat) (ns : List Node) (s : String) :
    querySelById (domAppend d j ns) s = querySelById d s :=
  querySel_domMod d j _ s (fun _ => rfl) (fun _ => rfl)

theorem querySel_create (d : Dom) (s : String) (h : querySelById d s = none) :
    querySelById (domCreate d s).2 s = some d.nextId := by
  obtain ⟨l, n⟩ := d
  simp only [querySelById, domCreate] at *
  rw [List.find?_append]
  cases hf : l.find? (fun q : Nat × ElemSt => q.2.domId = s && q.2.attached) with
  | some q => rw [hf] at h; simp at h
  | none => simp [List.find?]

theorem clearIfAttached_isSome (d : Dom) (c i : Nat) :
    (domGet (clearIfAttached d c) i).isSome = (domGet d i).isSome := by
  unfold clearIfAttached
  cases hdg : domGet d c with
  | none => rfl
  | some st =>
    cases hat : st.attached
    · simp [hat]
    · simp [hat, domSetContent, domGet_domMod_isSome]

theorem clearIfAttached_querySel (d : Dom) (c : Nat) (t : String) :
    querySelById (clearIfAttached d c) t = querySelById d t := by
  unfold clearIfAttached
  cases hdg : domGet d c with
  | none => rfl
  | some st =>
    cases hat : st.attached
    · simp [hat]
    · simp [hat, querySel_setContent]

theorem clearIfAttached_content (d : Dom) (c : Nat) (st : ElemSt)
    (hdg : domGet d c = some st) (hnil : st.content = []) :
    ∃ st', domGet (clearIfAttached d c) c = some st' ∧ st'.content = [] := by
  unfold clearIfAttached
  simp only [hdg]
  cases hat : st.attached
  · rw [if_neg (by simp [hat])]
    exact ⟨st, hdg, hnil⟩
  · rw [if_pos (by simp [hat])]
    refine ⟨{ st with content := [] }, ?_, rfl⟩
    rw [domGet_setContent_self, hdg]
    rfl

end MFE


namespace MFE

theorem unload_mget_self (s : LoaderState) (n : String) :
    mget (unloadMFE s n).1.loadedMFEs n = none := by
  unfold unloadMFE
  cases hm : mget s.loadedMFEs n with
  | none => simpa using hm
  | some m =>
    obtain ⟨c, inst⟩ := m
    cases inst with
    | defaultTD => simp [mget_mdel_self]
    | val u d2 =>
      cases u with
      | some tdb => cases tdb <;> simp [mget_mdel_self]
      | none =>
        cases d2 with
        | some tdb2 => cases tdb2 <;> simp [mget_mdel_self]
        | none => simp [mget_mdel_self]

theorem unload_mget_ne (s : LoaderState) (n M : String) (h : M ≠ n) :
    mget (unloadMFE s n).1.loadedMFEs M = mget s.loadedMFEs M := by
  unfold unloadMFE
  cases hm : mget s.loadedMFEs n with
  | none => simp
  | some m =>
    obtain ⟨c, inst⟩ := m
    cases inst with
    | defaultTD => simp [mget_mdel_ne _ _ _ h]
    | val u d2 =>
      cases u with
      | some tdb => cases tdb <;> simp [mget_mdel_ne _ _ _ h]
      | none =>
        cases d2 with
        | some tdb2 => cases tdb2 <;> simp [mget_mdel_ne _ _ _ h]
        | none => simp [mget_mdel_ne _ _ _ h]

end MFE


namespace MFE

theorem unload_dom_isSome (s : LoaderState) (n : String) (i : Nat) :
    (domGet (unloadMFE s n).1.dom i).isSome = (domGet s.dom i).isSome := by
  unfold unloadMFE
  cases hm : mget s.loadedMFEs n with
  | none => simp
  | some m =>
    obtain ⟨c, inst⟩ := m
    cases inst with
    | defaultTD =>
      simp [clearIfAttached_isSome, domSetContent, domGet_domMod_isSome]
    | val u d2 =>
      cases u with
      | some tdb => cases tdb <;> simp [clearIfAttached_isSome]
      | none =>
        cases d2 with
        | some tdb2 => cases tdb2 <;> simp [clearIfAttached_isSome]
        | none => simp [clearIfAttached_isSome]

theorem unload_querySel (s : LoaderState) (n : String) (t : String) :
    querySelById (unloadMFE s n).1.dom t = querySelById s.dom t := by
  unfold unloadMFE
  cases hm : mget s.loadedMFEs n with
  | none => simp
  | some m =>
    obtain ⟨c, inst⟩ := m
    cases inst with
    | defaultTD => simp [clearIfAttached_querySel, querySel_setContent]
    | val u d2 =>
      cases u with
      | some tdb => cases tdb <;> simp [clearIfAttached_querySel]
      | none =>
        cases d2 with
        | some tdb2 => cases tdb2 <;> simp [clearIfAttached_querySel]
        | none => simp [clearIfAttached_querySel]

theorem unload_events_teardown (s : LoaderState) (n : String) (m : MFEMeta)
    (hm : mget s.loadedMFEs n = some m) (ht : instHasTeardown m.inst = true) :
    LEv.teardownCalled n ∈ (unloadMFE s n).2.1 ∧ LEv.unloaded n ∈ (unloadMFE s n).2.1 ∧
    ∀ M, LEv.installed M ∉ (unloadMFE s n).2.1 := by
  unfold unloadMFE
  rw [hm]
  obtain ⟨c, inst⟩ := m
  cases inst with
  | defaultTD => simp
  | val u d2 =>
    cases u with
    | some tdb => cases tdb <;> simp
    | none =>
      cases d2 with
      | some tdb2 => cases tdb2 <;> simp
      | none => simp [instHasTeardown] at ht

theorem unloadFirst_mget_self (s : LoaderState) (n : String) :
    mget (unloadFirst s n).1.loadedMFEs n = none := by
  unfold unloadFirst
  cases hm : mget s.loadedMFEs n with
  | none => simpa using hm
  | some m => simpa using unload_mget_self s n

theorem unloadFirst_mget_ne (s : LoaderState) (n M : String) (h : M ≠ n) :
    mget (unloadFirst s n).1.loadedMFEs M = mget s.loadedMFEs M := by
  unfold unloadFirst
  cases hm : mget s.loadedMFEs n with
  | none => simp
  | some m => simpa using unload_mget_ne s n M h

theorem unloadFirst_dom_isSome (s : LoaderState) (n : String) (i : Nat) :
    (domGet (unloadFirst s n).1.dom i).isSome = (domGet s.dom i).isSome := by
  unfold unloadFirst
  cases hm : mget s.loadedMFEs n with
  | none => simp
  | some m => simpa using unload_dom_isSome s n i

theorem unloadFirst_querySel (s : LoaderState) (n : String) (t : String) :
    querySelById (unloadFirst s n).1.dom t = querySelById s.dom t := by
  unfold unloadFirst
  cases hm : mget s.loadedMFEs n with
  | none => simp
  | some m => simpa using unload_querySel s n t

theorem loadCatch_map (s : LoaderState) (carg : ContainerArg) (n msg : String) :
    (loadCatch s carg n msg).1.loadedMFEs = s.loadedMFEs := by
  unfold loadCatch
  cases h : displayError s.dom carg n <;> rfl

theorem loadCatch_current (s : LoaderState) (carg : ContainerArg) (n msg : String) :
    (loadCatch s carg n msg).1.currentMFE = s.currentMFE := by
  unfold loadCatch
  cases h : displayError s.dom carg n <;> rfl

theorem loadCatch_ne_ok (s : LoaderState) (carg : ContainerArg) (n msg : String) :
    (loadCatch s carg n msg).2.2 ≠ LoadOutcome.ok := by
  unfold loadCatch
  cases h : displayError s.dom carg n <;> simp

theorem loadCatch_err_wrapped (s : LoaderState) (carg : ContainerArg) (n msg : String)
    (h : carg ≠ .selector .bad) :
    (loadCatch s carg n msg).2.2 = .err ("MFE load failed: " ++ n ++ " - " ++ msg) := by
  unfold loadCatch displayError
  cases carg with
  | element i => rfl
  | nullish => rfl
  | selector sel =>
    cases sel with
    | bad => exact absurd rfl h
    | byId t => cases hq : querySelById s.dom t <;> simp [hq]

end MFE


/-! ## Router theorems -/

namespace VRouter

/-- The unrolled `navigateDefault` agrees with `navigate` at the default
path, so using it for the recursive recovery call of `navigate` is exact. -/
theorem navigate_root_eq (s : RouterState) :
    navigate s "/" false = navigateDefault s := by
  unfold navigate navigateBody navigateDefault
  cases h : MFE.mget s.routes "/" with
  | none => simp [navPre, h]
  | some hb => cases hb <;> simp [navPre, h]

/-- C10: for every path (registered, unregistered, or default) and every
handler behaviour including handlers that throw, the promise returned by
`Router.navigate` resolves — every error path inside `navigate` is caught
by its outer try/catch. -/
theorem claim10_navigate_always_resolves (s : RouterState) (path : String) (skip : Bool) :
    (navigate s path skip).2.2 = NavOutcome.resolved := by
  unfold navigate
  cases h : navigateBody s path skip with
  | mk s' rest =>
    obtain ⟨ev, o⟩ := rest
    cases o <;> rfl

/-- C8: calling `init()` when the router is already initialized is a no-op
with a warning — it registers no additional popstate listener, performs no
navigation, and leaves all router state unchanged. -/
theorem claim8_init_idempotent (s : RouterState) (loc : String) (h : s.isInit = true) :
    init s loc = (s, [REv.warnAlreadyInit]) := by
  simp [init, h]

/-- C8 witness: re-initializing an initialized router at a concrete state. -/
theorem claim8_init_idempotent_witness :
    init { routes := [("/", HB.ok)], currentRoute := some "/", isInit := true,
           history := ["/"], listeners := 1 } "/x"
      = ({ routes := [("/", HB.ok)], currentRoute := some "/", isInit := true,
           history := ["/"], listeners := 1 }, [REv.warnAlreadyInit]) :=
  claim8_init_idempotent _ "/x" rfl

/-- C4: for every path `P` not registered in the route table (lookup is an
exact string match on the `Map` of routes), `navigate(P)` does not throw:
it logs a warning, substitutes the default path `'/'`, stores `'/'` as the
current route, and executes the default route's handler, never `P`'s. -/
theorem claim4_unknown_path_uses_default (s : RouterState) (P : String) (skip : Bool) (hb : HB)
    (hP : MFE.mget s.routes P = none) (hR : MFE.mget s.routes "/" = some hb) :
    (navigate s P skip).2.2 = NavOutcome.resolved ∧
    REv.warnNotFound P ∈ (navigate s P skip).2.1 ∧
    REv.handlerRun "/" ∈ (navigate s P skip).2.1 ∧
    REv.handlerRun P ∉ (navigate s P skip).2.1 ∧
    (navigate s P skip).1.currentRoute = some "/" := by
  have hPne : P ≠ "/" := by
    intro he
    rw [he, hR] at hP
    cases hP
  unfold navigate navigateBody navPre
  cases skip <;> cases hb <;> simp [hP, hR, hPne, Ne.symm hPne]

/-- C4 witness: navigating to an unregistered path on the example table. -/
theorem claim4_unknown_path_uses_default_witness :
    (navigate rEx "/nope" false).2.2 = NavOutcome.resolved ∧
    REv.warnNotFound "/nope" ∈ (navigate rEx "/nope" false).2.1 ∧
    REv.handlerRun "/" ∈ (navigate rEx "/nope" false).2.1 ∧
    REv.handlerRun "/nope" ∉ (navigate rEx "/nope" false).2.1 ∧
    (navigate rEx "/nope" false).1.currentRoute = some "/" :=
  claim4_unknown_path_uses_default rEx "/nope" false HB.ok (by decide) (by decide)

/-- C3 counterexample: `/home` is registered, its handler throws, and
`/home` is not the default path `/`, yet `navigate('/home')` performs no
recovery navigation (the guard also excludes `/home`); and when the default
route's own handler throws, the error does not propagate out of `navigate`
— the promise still resolves, the outer catch swallows it. -/
theorem claim3_cex_no_recovery_for_home :
    REv.handlerRun "/" ∉ (navigate rEx "/home" false).2.1 ∧
    REv.recoverHome ∉ (navigate rEx "/home" false).2.1 ∧
    (navigate rEx "/home" false).2.2 = NavOutcome.resolved ∧
    (navigate rExBadHome "/" false).2.2 = NavOutcome.resolved := by decide

/-- C3 (amended): for every registered path `P` whose handler throws,
`navigate(P)` catches the error and resolves; unless `P` is `'/'` or
`'/home'` it recursively navigates to the default path to recover; if `P`
is `'/'` or `'/home'`, the rethrown error is caught by `navigate`'s own
outer catch and logged as a critical navigation error — it is swallowed
there, not propagated to a process-wide handler. -/
theorem claim3_amended_recovery (s : RouterState) (P : String) (skip : Bool)
    (h : MFE.mget s.routes P = some HB.raises) :
    (navigate s P skip).2.2 = NavOutcome.resolved ∧
    (¬(P = "/" ∨ P = "/home") → REv.recoverHome ∈ (navigate s P skip).2.1) ∧
    ((P = "/" ∨ P = "/home") → REv.criticalError ∈ (navigate s P skip).2.1 ∧
      REv.recoverHome ∉ (navigate s P skip).2.1) := by
  unfold navigate navigateBody navPre
  by_cases hp : P = "/" ∨ P = "/home"
  · have hcond : ¬(P ≠ "/" ∧ P ≠ "/home") := by tauto
    cases skip <;> simp [h, hp, hcond]
  · have h1 : P ≠ "/" := fun he => hp (Or.inl he)
    have h2 : P ≠ "/home" := fun he => hp (Or.inr he)
    cases skip <;> simp [h, hp, h1, h2]

/-- C3 witness: a registered throwing path away from the guard recovers;
`/home` itself hits the swallowing branch. -/
theorem claim3_amended_recovery_witness :
    ((navigate { rEx with routes := rEx.routes ++ [("/x", HB.raises)] } "/x" false).2.2
        = NavOutcome.resolved ∧
      (¬("/x" = "/" ∨ "/x" = "/home") →
        REv.recoverHome ∈ (navigate { rEx with routes := rEx.routes ++ [("/x", HB.raises)] } "/x" false).2.1) ∧
      (("/x" = "/" ∨ "/x" = "/home") →
        REv.criticalError ∈ (navigate { rEx with routes := rEx.routes ++ [("/x", HB.raises)] } "/x" false).2.1 ∧
        REv.recoverHome ∉ (navigate { rEx with routes := rEx.routes ++ [("/x", HB.raises)] } "/x" false).2.1)) ∧
    ((navigate rEx "/home" false).2.2 = NavOutcome.resolved ∧
      (¬("/home" = "/" ∨ "/home" = "/home") →
        REv.recoverHome ∈ (navigate rEx "/home" false).2.1) ∧
      (("/home" = "/" ∨ "/home" = "/home") →
        REv.criticalError ∈ (navigate rEx "/home" false).2.1 ∧
        REv.recoverHome ∉ (navigate rEx "/home" false).2.1)) :=
  ⟨claim3_amended_recovery _ "/x" false (by decide),
   claim3_amended_recovery rEx "/home" false (by decide)⟩

end VRouter


/-! ## Loader theorems -/

namespace MFE

/-- C5: `unloadMFE(N)` is a no-op resolving `false` when `N` is not loaded
(the state, including every map entry, is untouched); and after every
`unloadMFE(N)` call — whether or not the stored teardown throws — the map
entry for `N` is gone, so `isLoaded(N)` is `false` afterwards. -/
theorem claim5_unload_always_clears_entry (s : LoaderState) (N : String) :
    isLoaded (unloadMFE s N).1 N = false ∧
    (isLoaded s N = false → unloadMFE s N = (s, [LEv.notLoadedWarn N], false)) := by
  constructor
  · simp [isLoaded, unload_mget_self]
  · intro h
    unfold unloadMFE
    cases hm : mget s.loadedMFEs N with
    | none => rfl
    | some m => simp [isLoaded, hm] at h

/-- C5 witness: on the concrete states — nothing loaded, and `a` loaded
with a teardown that throws — the conclusions hold. -/
theorem claim5_unload_always_clears_entry_witness :
    (isLoaded (unloadMFE sEx "a").1 "a" = false ∧
      (isLoaded sEx "a" = false → unloadMFE sEx "a" = (sEx, [LEv.notLoadedWarn "a"], false))) ∧
    isLoaded (unloadMFE (loadMFE sEx "a" (.element 0) impRaises).1 "a").1 "a" = false :=
  ⟨claim5_unload_always_clears_entry sEx "a",
   (claim5_unload_always_clears_entry (loadMFE sEx "a" (.element 0) impRaises).1 "a").1⟩

/-- C7: the catch block of `_displayError` references the `container`
binding that is scoped to the preceding try block, so when building the
rich error view fails (here: the container selector string is unparsable
and `querySelector` throws), the fallback path itself throws a
`ReferenceError` instead of rendering the minimal static message — for any
document and any MFE name. -/
theorem claim7_display_error_fallback_throws (d : Dom) (name : String) :
    displayError d (ContainerArg.selector Sel.bad) name
      = Except.error "ReferenceError: container is not defined" := rfl

/-- C2 counterexample: with `a` already loaded, a `loadMFE('a', null)` call
fails at container resolution; the claim says the map then contains no
entry for `a` and a fallback is rendered, but the call leaves the loader
state completely unchanged — the stale entry for `a` survives and no
fallback view is rendered anywhere. -/
theorem claim2_cex_preexisting_entry_survives :
    isLoaded sLoadedA "a" = true ∧
    (loadMFE sLoadedA "a" ContainerArg.nullish impOk).2.2 ≠ LoadOutcome.ok ∧
    isLoaded (loadMFE sLoadedA "a" ContainerArg.nullish impOk).1 "a" = true ∧
    (loadMFE sLoadedA "a" ContainerArg.nullish impOk).1 = sLoadedA := by decide

/-- C9 counterexample: load `a` successfully, then unload it with a
teardown that throws: the entry is removed from the map but `currentMFE`
is left pointing at `a`, so `getCurrentMFE()` names an MFE for which
`isLoaded` is `false` — the current-MFE pointer dangles. -/
theorem claim9_cex_dangling_current :
    getCurrentMFE (lrun sEx [.load "a" (.element 0) impRaises, .unload "a"]) = some "a" ∧
    isLoaded (lrun sEx [.load "a" (.element 0) impRaises, .unload "a"]) "a" = false := by decide

end MFE



namespace MFE

/-- Unloading an entry that stores the substituted default teardown:
the teardown is invoked (clearing the container), the entry is deleted,
and the call resolves `true`. -/
theorem unload_defaultTD (l : List (String × MFEMeta)) (cur : Option String) (d : Dom)
    (N : String) (c : Nat) (hm : mget l N = some ⟨c, Instance.defaultTD⟩) :
    unloadMFE ⟨l, cur, d⟩ N
      = (⟨mdel l N, if cur = some N then none else cur,
          clearIfAttached (domSetContent d c []) c⟩,
         [LEv.teardownCalled N, LEv.unloaded N], true) := by
  unfold unloadMFE
  rw [hm]
  rfl

/-- A successful mount whose result has no callable `unmount` installs the
default-teardown instance: the full shape of `loadMFE` in that case. -/
theorem load_noUnmount_eq (s : LoaderState) (N : String) (carg : ContainerArg)
    (app : List Node) (dstr : Option TDB) (c : Nat) (d0 : Dom)
    (hres : getOrCreateContainer s.dom carg = .ok (some (c, d0))) :
    loadMFE s N carg (.succeeds ⟨true, .returns app ⟨none, dstr⟩⟩)
      = (⟨mset (unloadFirst { s with dom := d0 } N).1.loadedMFEs N ⟨c, Instance.defaultTD⟩,
          some N,
          domAppend (unloadFirst { s with dom := d0 } N).1.dom c app⟩,
         (unloadFirst { s with dom := d0 } N).2 ++ [LEv.defaultTeardownWarn]
           ++ [LEv.mounted N, LEv.installed N],
         LoadOutcome.ok) := by
  unfold loadMFE
  rw [hres]
  rfl

/-- C6: when the remote's mount resolves to a value without a callable
`unmount`, `loadMFE` stores the substituted default teardown (warning
logged), the load still succeeds, and a subsequent `unloadMFE` resolves
`true` (no throw) and leaves the container emptied. -/
theorem claim6_substitutes_default_teardown (s : LoaderState) (N : String)
    (carg : ContainerArg) (app : List Node) (dstr : Option TDB) (c : Nat) (d0 : Dom)
    (hres : getOrCreateContainer s.dom carg = .ok (some (c, d0)))
    (hc : (domGet d0 c).isSome = true) :
    (loadMFE s N carg (.succeeds ⟨true, .returns app ⟨none, dstr⟩⟩)).2.2 = LoadOutcome.ok ∧
    mget (loadMFE s N carg (.succeeds ⟨true, .returns app ⟨none, dstr⟩⟩)).1.loadedMFEs N
      = some ⟨c, Instance.defaultTD⟩ ∧
    LEv.defaultTeardownWarn ∈ (loadMFE s N carg (.succeeds ⟨true, .returns app ⟨none, dstr⟩⟩)).2.1 ∧
    (unloadMFE (loadMFE s N carg (.succeeds ⟨true, .returns app ⟨none, dstr⟩⟩)).1 N).2.2 = true ∧
    (∃ st, domGet (unloadMFE (loadMFE s N carg (.succeeds ⟨true, .returns app ⟨none, dstr⟩⟩)).1 N).1.dom c
        = some st ∧ st.content = []) := by
  have hL := load_noUnmount_eq s N carg app dstr c d0 hres
  have hmm : mget (mset (unloadFirst { s with dom := d0 } N).1.loadedMFEs N
      ⟨c, Instance.defaultTD⟩) N = some ⟨c, Instance.defaultTD⟩ := mget_mset_self _ _ _
  have hu := unload_defaultTD
    (mset (unloadFirst { s with dom := d0 } N).1.loadedMFEs N ⟨c, Instance.defaultTD⟩)
    (some N) (domAppend (unloadFirst { s with dom := d0 } N).1.dom c app) N c hmm
  have hS : (domGet (domAppend (unloadFirst { s with dom := d0 } N).1.dom c app) c).isSome = true := by
    rw [domAppend, domGet_domMod_isSome]
    have h1 := unloadFirst_dom_isSome { s with dom := d0 } N c
    rw [h1]
    exact hc
  obtain ⟨st0, hst0⟩ := Option.isSome_iff_exists.mp hS
  have hset : domGet (domSetContent (domAppend (unloadFirst { s with dom := d0 } N).1.dom c app) c []) c
      = some { st0 with content := [] } := by
    rw [domGet_setContent_self, hst0]
    rfl
  refine ⟨by rw [hL], by rw [hL]; exact hmm, by rw [hL]; simp, ?_, ?_⟩
  · rw [hL]
    simp only [hu]
  · rw [hL]
    simp only [hu]
    exact clearIfAttached_content _ c _ hset rfl

/-- C6 witness: `load('a', container)` whose mount resolves to an empty
object on the concrete document. -/
theorem claim6_substitutes_default_teardown_witness :
    (loadMFE sEx "a" (.element 0) impNoU).2.2 = LoadOutcome.ok ∧
    mget (loadMFE sEx "a" (.element 0) impNoU).1.loadedMFEs "a"
      = some ⟨0, Instance.defaultTD⟩ ∧
    LEv.defaultTeardownWarn ∈ (loadMFE sEx "a" (.element 0) impNoU).2.1 ∧
    (unloadMFE (loadMFE sEx "a" (.element 0) impNoU).1 "a").2.2 = true ∧
    (∃ st, domGet (unloadMFE (loadMFE sEx "a" (.element 0) impNoU).1 "a").1.dom 0
        = some st ∧ st.content = []) :=
  claim6_substitutes_default_teardown sEx "a" (.element 0) [Node.mfeContent 7] none 0 domEx rfl rfl

end MFE


namespace MFE

theorem displayError_byId (d : Dom) (t N : String) (i : Nat)
    (hq : querySelById d t = some i) :
    displayError d (.selector (.byId t)) N
      = .ok (domSetContent d i [Node.errorFallback N]) := by
  have h0 : displayError d (.selector (.byId t)) N
      = (match querySelById d t with
         | some j => Except.ok (domSetContent d j [Node.errorFallback N])
         | none => Except.ok d) := rfl
  rw [h0, hq]

theorem loadCatch_eq_of_disp (s : LoaderState) (carg : ContainerArg) (N msg : String)
    (d' : Dom) (hdisp : displayError s.dom carg N = .ok d') :
    loadCatch s carg N msg
      = ({ s with dom := d' }, [LEv.loadFailed N],
         .err ("MFE load failed: " ++ N ++ " - " ++ msg)) := by
  unfold loadCatch
  rw [hdisp]

/-- Any import/mount-stage failure routes through the catch handler of
`loadMFE`, after the unload-first phase. -/
theorem load_fail_eq (s : LoaderState) (N : String) (carg : ContainerArg) (imp : ImportOutcome)
    (c : Nat) (d0 : Dom)
    (hres : getOrCreateContainer s.dom carg = .ok (some (c, d0)))
    (hfail : importFails imp = true) :
    ∃ msg, loadMFE s N carg imp
      = ((loadCatch (unloadFirst { s with dom := d0 } N).1 carg N msg).1,
         (unloadFirst { s with dom := d0 } N).2
           ++ (loadCatch (unloadFirst { s with dom := d0 } N).1 carg N msg).2.1,
         (loadCatch (unloadFirst { s with dom := d0 } N).1 carg N msg).2.2) := by
  unfold loadMFE
  rw [hres]
  cases imp with
  | fails msg => exact ⟨"Failed to import remote module: " ++ msg, rfl⟩
  | succeeds m =>
    obtain ⟨hM, mnt⟩ := m
    cases hM
    · exact ⟨"Remote module does not export a mount or bootstrap function", rfl⟩
    · cases mnt with
      | throws msg => exact ⟨msg, rfl⟩
      | returns app v => simp [importFails] at hfail

/-- C2 (amended): if `loadMFE(N, c)` fails at remote import or mount
execution (container resolution having succeeded), then afterwards the map
contains no entry for `N`, no entry for any other name has changed, the
fallback error view is the container's entire content, and the promise
rejects with the wrapped error identifying `N`.  (When container
resolution itself fails, a pre-existing entry for `N` survives instead —
see the counterexample.) -/
theorem claim2_amended_failure_rollback (s : LoaderState) (N : String)
    (carg : ContainerArg) (imp : ImportOutcome) (c : Nat) (d0 : Dom)
    (hres : getOrCreateContainer s.dom carg = .ok (some (c, d0)))
    (hc : (domGet d0 c).isSome = true)
    (hfail : importFails imp = true) :
    mget (loadMFE s N carg imp).1.loadedMFEs N = none ∧
    (∀ M, M ≠ N → mget (loadMFE s N carg imp).1.loadedMFEs M = mget s.loadedMFEs M) ∧
    (∃ st, domGet (loadMFE s N carg imp).1.dom c = some st ∧
      st.content = [Node.errorFallback N]) ∧
    (∃ inner, (loadMFE s N carg imp).2.2
      = LoadOutcome.err ("MFE load failed: " ++ N ++ " - " ++ inner)) := by
  obtain ⟨msg, hL⟩ := load_fail_eq s N carg imp c d0 hres hfail
  have hq : displayError (unloadFirst { s with dom := d0 } N).1.dom carg N
      = .ok (domSetContent (unloadFirst { s with dom := d0 } N).1.dom c
          [Node.errorFallback N]) := by
    cases carg with
    | element i =>
      unfold getOrCreateContainer at hres
      simp only [Except.ok.injEq, Option.some.injEq, Prod.mk.injEq] at hres
      obtain ⟨hci, hd0⟩ := hres
      subst hci
      subst hd0
      rfl
    | nullish => simp [getOrCreateContainer] at hres
    | selector sel =>
      cases sel with
      | bad => simp [getOrCreateContainer] at hres
      | byId t =>
        have hsel : querySelById (unloadFirst { s with dom := d0 } N).1.dom t = some c := by
          rw [unloadFirst_querySel]
          show querySelById d0 t = some c
          unfold getOrCreateContainer at hres
          cases hq0 : querySelById s.dom t with
          | some i =>
            simp only [hq0, Except.ok.injEq, Option.some.injEq, Prod.mk.injEq] at hres
            obtain ⟨hci, hd0⟩ := hres
            subst hci
            subst hd0
            exact hq0
          | none =>
            simp only [hq0, Except.ok.injEq, Option.some.injEq] at hres
            obtain ⟨hci, hd0⟩ : s.dom.nextId = c ∧ (domCreate s.dom t).2 = d0 :=
              ⟨congrArg Prod.fst hres, congrArg Prod.snd hres⟩
            subst hci
            subst hd0
            exact querySel_create s.dom t hq0
        exact displayError_byId _ t N c hsel
  have hcatch := loadCatch_eq_of_disp (unloadFirst { s with dom := d0 } N).1 carg N msg _ hq
  rw [hL, hcatch]
  refine ⟨?_, ?_, ?_, ⟨msg, rfl⟩⟩
  · simpa using unloadFirst_mget_self { s with dom := d0 } N
  · intro M hM
    simpa using unloadFirst_mget_ne { s with dom := d0 } N M hM
  · have hS : (domGet (unloadFirst { s with dom := d0 } N).1.dom c).isSome = true := by
      rw [unloadFirst_dom_isSome]
      exact hc
    obtain ⟨st0, hst0⟩ := Option.isSome_iff_exists.mp hS
    refine ⟨{ st0 with content := [Node.errorFallback N] }, ?_, rfl⟩
    show domGet (domSetContent (unloadFirst { s with dom := d0 } N).1.dom c
      [Node.errorFallback N]) c = _
    rw [domGet_setContent_self, hst0]
    rfl

/-- C2 witness: a failing import into the concrete document, with `a`
already loaded. -/
theorem claim2_amended_failure_rollback_witness :
    mget (loadMFE sLoadedA "a" (.element 0) (.fails "net")).1.loadedMFEs "a" = none ∧
    (∀ M, M ≠ "a" →
      mget (loadMFE sLoadedA "a" (.element 0) (.fails "net")).1.loadedMFEs M
        = mget sLoadedA.loadedMFEs M) ∧
    (∃ st, domGet (loadMFE sLoadedA "a" (.element 0) (.fails "net")).1.dom 0 = some st ∧
      st.content = [Node.errorFallback "a"]) ∧
    (∃ inner, (loadMFE sLoadedA "a" (.element 0) (.fails "net")).2.2
      = LoadOutcome.err ("MFE load failed: " ++ "a" ++ " - " ++ inner)) :=
  claim2_amended_failure_rollback sLoadedA "a" (.element 0) (.fails "net") 0 sLoadedA.dom
    rfl (by decide) rfl

end MFE


namespace MFE

/-- The shape of `loadMFE` on a successful mount. -/
theorem load_returns_eq (s : LoaderState) (n : String) (carg : ContainerArg)
    (app : List Node) (v : MountVal) (c : Nat) (d0 : Dom)
    (hres : getOrCreateContainer s.dom carg = .ok (some (c, d0))) :
    loadMFE s n carg (.succeeds ⟨true, .returns app v⟩)
      = (⟨mset (unloadFirst { s with dom := d0 } n).1.loadedMFEs n
            ⟨c, match v.unmount with
                | some u => Instance.val (some u) v.destroy
                | none => Instance.defaultTD⟩,
          some n,
          domAppend (unloadFirst { s with dom := d0 } n).1.dom c app⟩,
         (unloadFirst { s with dom := d0 } n).2
           ++ (match v.unmount with
               | some _ => ([] : List LEv)
               | none => [LEv.defaultTeardownWarn])
           ++ [LEv.mounted n, LEv.installed n],
         LoadOutcome.ok) := by
  unfold loadMFE
  rw [hres]
  obtain ⟨uv, dv⟩ := v
  cases uv <;> rfl

/-- A load resolves `ok` only when the container resolved and the mount
function returned. -/
theorem load_ok_shape (s : LoaderState) (n : String) (carg : ContainerArg)
    (imp : ImportOutcome) (h : (loadMFE s n carg imp).2.2 = .ok) :
    ∃ c d0 app v, getOrCreateContainer s.dom carg = .ok (some (c, d0)) ∧
      imp = .succeeds ⟨true, .returns app v⟩ := by
  unfold loadMFE at h
  cases hres : getOrCreateContainer s.dom carg with
  | error msg =>
    rw [hres] at h
    exact absurd h (loadCatch_ne_ok _ _ _ _)
  | ok o =>
    cases o with
    | none =>
      rw [hres] at h
      exact absurd h (loadCatch_ne_ok _ _ _ _)
    | some p =>
      obtain ⟨c, d0⟩ := p
      rw [hres] at h
      cases imp with
      | fails msg => exact absurd h (loadCatch_ne_ok _ _ _ _)
      | succeeds m =>
        obtain ⟨hM, mnt⟩ := m
        cases hM
        · exact absurd h (loadCatch_ne_ok _ _ _ _)
        · cases mnt with
          | throws msg => exact absurd h (loadCatch_ne_ok _ _ _ _)
          | returns app v => exact ⟨c, d0, app, v, rfl, rfl⟩

/-- After a successful load, the name maps to an instance that carries a
teardown callable (the remote's own `unmount`, or the substituted default). -/
theorem load_ok_loaded (s : LoaderState) (n : String) (carg : ContainerArg)
    (imp : ImportOutcome) (h : (loadMFE s n carg imp).2.2 = .ok) :
    ∃ m, mget (loadMFE s n carg imp).1.loadedMFEs n = some m ∧
      instHasTeardown m.inst = true := by
  obtain ⟨c, d0, app, v, hres, himp⟩ := load_ok_shape s n carg imp h
  subst himp
  obtain ⟨uv, dv⟩ := v
  cases uv with
  | some u =>
    rw [load_returns_eq s n carg app ⟨some u, dv⟩ c d0 hres]
    exact ⟨_, mget_mset_self _ _ _, rfl⟩
  | none =>
    rw [load_returns_eq s n carg app ⟨none, dv⟩ c d0 hres]
    exact ⟨_, mget_mset_self _ _ _, rfl⟩

/-- C1: calling `loadMFE(N, c)` a second time after a first successful load
(awaiting between the calls), when the second load succeeds, first invokes
the existing instance's teardown and removes its map entry — both strictly
before the new mount is installed — and afterwards the loaded-MFE map
contains exactly one entry for `N`. -/
theorem claim1_reload_tears_down_first (s : LoaderState) (n : String) (carg : ContainerArg)
    (imp1 imp2 : ImportOutcome)
    (h1 : (loadMFE s n carg imp1).2.2 = .ok)
    (h2 : (loadMFE (loadMFE s n carg imp1).1 n carg imp2).2.2 = .ok) :
    ((loadMFE (loadMFE s n carg imp1).1 n carg imp2).1.loadedMFEs.filter
        (fun p => p.1 = n)).length = 1 ∧
    (∃ evA evB, (loadMFE (loadMFE s n carg imp1).1 n carg imp2).2.1 = evA ++ evB ∧
      LEv.teardownCalled n ∈ evA ∧ LEv.unloaded n ∈ evA ∧
      LEv.installed n ∈ evB ∧ LEv.installed n ∉ evA) := by
  obtain ⟨m1, hm1, ht1⟩ := load_ok_loaded s n carg imp1 h1
  obtain ⟨c, d0, app, v, hres2, himp2⟩ :=
    load_ok_shape (loadMFE s n carg imp1).1 n carg imp2 h2
  subst himp2
  set s1 := (loadMFE s n carg imp1).1 with hs1
  have hUF : unloadFirst { s1 with dom := d0 } n
      = ((unloadMFE { s1 with dom := d0 } n).1,
         .alreadyLoadedWarn n :: (unloadMFE { s1 with dom := d0 } n).2.1) := by
    unfold unloadFirst
    simp only [hm1]
  rw [load_returns_eq s1 n carg app v c d0 hres2]
  obtain ⟨htc, hun, hni⟩ :=
    unload_events_teardown { s1 with dom := d0 } n m1 hm1 ht1
  constructor
  · have h0 := unloadFirst_mget_self { s1 with dom := d0 } n
    rw [filter_mset_self _ _ _ h0]
    rfl
  · refine ⟨(unloadFirst { s1 with dom := d0 } n).2,
      (match v.unmount with
       | some _ => ([] : List LEv)
       | none => [LEv.defaultTeardownWarn]) ++ [LEv.mounted n, LEv.installed n],
      List.append_assoc _ _ _, ?_, ?_, ?_, ?_⟩
    · simp only [hUF]
      exact List.mem_cons_of_mem _ htc
    · simp only [hUF]
      exact List.mem_cons_of_mem _ hun
    · simp
    · simp only [hUF]
      intro hmem
      rcases List.mem_cons.mp hmem with hx | hx
      · cases hx
      · exact hni n hx

/-- C1 witness: loading `a` twice in sequence on the concrete document. -/
theorem claim1_reload_tears_down_first_witness :
    ((loadMFE (loadMFE sEx "a" (.element 0) impOk).1 "a" (.element 0) impOk).1.loadedMFEs.filter
        (fun p => p.1 = "a")).length = 1 ∧
    (∃ evA evB, (loadMFE (loadMFE sEx "a" (.element 0) impOk).1 "a" (.element 0) impOk).2.1
        = evA ++ evB ∧
      LEv.teardownCalled "a" ∈ evA ∧ LEv.unloaded "a" ∈ evA ∧
      LEv.installed "a" ∈ evB ∧ LEv.installed "a" ∉ evA) :=
  claim1_reload_tears_down_first sEx "a" (.element 0) impOk impOk (by decide) (by decide)

end MFE


namespace MFE

/-- Deleting an entry and clearing the current pointer when it named that
entry preserves the loader invariant, whatever happens to the document. -/
theorem linv_after_delete (s : LoaderState) (n : String) (d' : Dom) (hs : LInv s) :
    LInv ⟨mdel s.loadedMFEs n,
          if s.currentMFE = some n then none else s.currentMFE, d'⟩ := by
  constructor
  · intro p hp
    exact hs.1 p (mem_mdel _ _ _ hp)
  · intro n' hcur
    by_cases hc : s.currentMFE = some n
    · simp [hc] at hcur
    · simp only [if_neg hc] at hcur
      have hne : n' ≠ n := by
        intro he
        subst he
        exact hc hcur
      rw [mget_mdel_ne _ _ _ hne]
      exact hs.2 n' hcur

/-- The invariant only depends on the map and the current pointer. -/
theorem linv_fields (s s' : LoaderState) (hl : s'.loadedMFEs = s.loadedMFEs)
    (hc : s'.currentMFE = s.currentMFE) (hs : LInv s) : LInv s' := by
  constructor
  · intro p hp
    exact hs.1 p (hl ▸ hp)
  · intro n' hcur
    rw [hl]
    exact hs.2 n' (hc ▸ hcur)

/-- `unloadMFE` preserves the invariant when every tracked teardown is
benign (so the throwing branch, which leaves the pointer dangling, is
never taken). -/
theorem linv_unload (s : LoaderState) (n : String) (hs : LInv s) :
    LInv (unloadMFE s n).1 := by
  unfold unloadMFE
  cases hm : mget s.loadedMFEs n with
  | none => exact hs
  | some m =>
    obtain ⟨c, inst⟩ := m
    have hb : benignInst inst = true := hs.1 (n, ⟨c, inst⟩) (mget_mem _ _ _ hm)
    cases inst with
    | defaultTD => exact linv_after_delete s n _ hs
    | val u dv =>
      cases u with
      | some tdb =>
        cases tdb
        · exact linv_after_delete s n _ hs
        · simp [benignInst] at hb
      | none =>
        cases dv with
        | some tdb2 =>
          cases tdb2
          · exact linv_after_delete s n _ hs
          · simp [benignInst] at hb
        | none => exact linv_after_delete s n _ hs

/-- The unload-first phase of `loadMFE` preserves the invariant. -/
theorem linv_unloadFirst (s : LoaderState) (n : String) (hs : LInv s) :
    LInv (unloadFirst s n).1 := by
  unfold unloadFirst
  cases hm : mget s.loadedMFEs n with
  | none => exact hs
  | some m => exact linv_unload s n hs

/-- `loadMFE` with a container argument whose resolution throws. -/
theorem load_err_container_eq (s : LoaderState) (n : String) (carg : ContainerArg)
    (imp : ImportOutcome) (msg : String)
    (hres : getOrCreateContainer s.dom carg = .error msg) :
    loadMFE s n carg imp = loadCatch s carg n msg := by
  unfold loadMFE
  rw [hres]

/-- `loadMFE` with a container argument resolving to `null`. -/
theorem load_none_container_eq (s : LoaderState) (n : String) (carg : ContainerArg)
    (imp : ImportOutcome)
    (hres : getOrCreateContainer s.dom carg = .ok none) :
    loadMFE s n carg imp = loadCatch s carg n "Container not found" := by
  unfold loadMFE
  rw [hres]

/-- A non-failing import oracle is a successful mount. -/
theorem import_not_fails (imp : ImportOutcome) (h : importFails imp = false) :
    ∃ app v, imp = .succeeds ⟨true, .returns app v⟩ := by
  cases imp with
  | fails msg => simp [importFails] at h
  | succeeds m =>
    obtain ⟨hM, mnt⟩ := m
    cases hM
    · simp [importFails] at h
    · cases mnt with
      | throws msg => simp [importFails] at h
      | returns app v => exact ⟨app, v, rfl⟩

/-- Every benign loader call preserves the invariant. -/
theorem linv_step (s : LoaderState) (op : LOp) (hs : LInv s) (hop : benignOp op = true) :
    LInv (lstep s op) := by
  cases op with
  | unload n => exact linv_unload s n hs
  | load n carg imp =>
    show LInv (loadMFE s n carg imp).1
    cases hres : getOrCreateContainer s.dom carg with
    | error msg =>
      rw [load_err_container_eq s n carg imp msg hres]
      exact linv_fields s _ (loadCatch_map _ _ _ _) (loadCatch_current _ _ _ _) hs
    | ok o =>
      cases o with
      | none =>
        rw [load_none_container_eq s n carg imp hres]
        exact linv_fields s _ (loadCatch_map _ _ _ _) (loadCatch_current _ _ _ _) hs
      | some p =>
        obtain ⟨c, d0⟩ := p
        have hs0 : LInv ({ s with dom := d0 } : LoaderState) :=
          linv_fields s _ rfl rfl hs
        have hsu : LInv (unloadFirst { s with dom := d0 } n).1 :=
          linv_unloadFirst _ n hs0
        by_cases hfail : importFails imp = true
        · obtain ⟨msg, hL⟩ := load_fail_eq s n carg imp c d0 hres hfail
          rw [hL]
          exact linv_fields _ _ (loadCatch_map _ _ _ _) (loadCatch_current _ _ _ _) hsu
        · obtain ⟨app, v, himp⟩ :=
            import_not_fails imp (Bool.not_eq_true _ ▸ hfail)
          subst himp
          rw [load_returns_eq s n carg app v c d0 hres]
          obtain ⟨uv, dv⟩ := v
          have hbv : benignVal ⟨uv, dv⟩ = true := hop
          constructor
          · intro p hp
            rcases mem_mset _ _ _ _ hp with hpe | hpm
            · subst hpe
              cases uv with
              | none => rfl
              | some tdb =>
                cases tdb with
                | ok =>
                  cases dv with
                  | none => rfl
                  | some tdb2 =>
                    cases tdb2 with
                    | ok => rfl
                    | raises => simp [benignVal] at hbv
                | raises => simp [benignVal] at hbv
            · exact hsu.1 p hpm
          · intro n' hcur
            have hn : n = n' := by
              simpa using hcur
            subst hn
            simp [mget_mset_self]

/-- The invariant holds after any benign call sequence. -/
theorem linv_run (s : LoaderState) (ops : List LOp) (hs : LInv s)
    (hops : ∀ op ∈ ops, benignOp op = true) : LInv (lrun s ops) := by
  induction ops generalizing s with
  | nil => exact hs
  | cons op t ih =>
    exact ih (lstep s op) (linv_step s op hs (hops op (List.mem_cons_self _ _)))
      (fun o ho => hops o (List.mem_cons_of_mem _ ho))

/-- C9 (amended): in every state reachable from the fresh loader by calls
whose installed teardowns never throw, a non-null `getCurrentMFE()` always
names a tracked entry — the current-MFE pointer dangles only through the
teardown-throwing branch of `unloadMFE` (see the counterexample). -/
theorem claim9_amended_no_dangling_current (d : Dom) (ops : List LOp)
    (hops : ∀ op ∈ ops, benignOp op = true) (n : String)
    (hcur : getCurrentMFE (lrun (initLoader d) ops) = some n) :
    isLoaded (lrun (initLoader d) ops) n = true := by
  have hinv0 : LInv (initLoader d) := by
    constructor
    · intro p hp
      simp [initLoader] at hp
    · intro n' h
      simp [initLoader, getCurrentMFE] at h
  have hinv := linv_run (initLoader d) ops hinv0 hops
  exact hinv.2 n hcur

/-- C9 (amended) witness: one benign load, after which the current MFE is
tracked. -/
theorem claim9_amended_no_dangling_current_witness :
    (∀ op ∈ ([.load "a" (.element 0) impOk] : List LOp), benignOp op = true) ∧
    getCurrentMFE (lrun (initLoader domEx) [.load "a" (.element 0) impOk]) = some "a" ∧
    isLoaded (lrun (initLoader domEx) [.load "a" (.element 0) impOk]) "a" = true :=
  ⟨by decide, by decide,
   claim9_amended_no_dangling_current domEx [.load "a" (.element 0) impOk]
     (by decide) "a" (by decide)⟩

end MFE

